import Mathlib

/-!
Verification of the eplot coordinate-transform and interaction engine.

The Rust source (`src/eplot/plot.rs`, `src/eplot/items.rs`) works on `f32`
values with pure field arithmetic except for the logarithmic-scaling
transform branch.  We embed the arithmetic parts over `ℚ` (every `f32`
value is a rational, and all operations involved are exact field
operations), and the scaling-dependent transform functions over `ℝ`
(their logarithmic branch is transcendental).

Naming: Rust struct fields named `end` are embedded as `stop` (`end` is a
Lean keyword); everything else keeps the source name where Lean allows.
The file is organised as all definitions first, then all theorems.
-/

namespace Eplot

/-! ## Definitions: AxisRange (plot.rs lines 27-81) -/

/-- `AxisScaling` from plot.rs (lines 27-31). -/
inductive AxisScaling
  | Linear
  | Logarithmic
deriving DecidableEq, Repr

/-- `AxisRange` from plot.rs (lines 39-44): `{start: f32, end: f32, scaling}`.
The `end` field is embedded as `stop`. -/
structure AxisRange where
  start : ℚ
  stop : ℚ
  scaling : AxisScaling
deriving DecidableEq, Repr

/-- `AxisRange::new(range)` from plot.rs (lines 57-63): linear scaling. -/
def AxisRange.new (lo hi : ℚ) : AxisRange :=
  { start := lo, stop := hi, scaling := AxisScaling.Linear }

/-- `AxisRange::extent` from plot.rs (lines 65-67): `self.end - self.start`. -/
def AxisRange.extent (r : AxisRange) : ℚ :=
  r.stop - r.start

/-- `AxisRange::middle` from plot.rs (lines 69-71): `(self.start + self.end) / 2`. -/
def AxisRange.middle (r : AxisRange) : ℚ :=
  (r.start + r.stop) / 2

/-- `AxisRange::translate` from plot.rs (lines 73-76): both bounds shifted by `delta`. -/
def AxisRange.translate (r : AxisRange) (delta : ℚ) : AxisRange :=
  { r with start := r.start + delta, stop := r.stop + delta }

/-- `AxisRange::zoom` from plot.rs (lines 78-81).  The source mutates
`self.start` first and then evaluates `self.extent()` AGAIN for the
`self.end` update, so the second line sees the already-updated start:

    self.start -= amount * center * self.extent();
    self.end += amount * (1. - center) * self.extent();

The embedding reproduces this sequential mutation faithfully. -/
def AxisRange.zoom (r : AxisRange) (amount center : ℚ) : AxisRange :=
  let r1 := { r with start := r.start - amount * center * r.extent }
  { r1 with stop := r1.stop + amount * (1 - center) * r1.extent }

/-- The data value located at fractional position `c` within the visible
interval of `r` — the quantity the spec's anchor-invariance property is
about (spec §4.1 / §8). -/
def AxisRange.fractionalPoint (r : AxisRange) (c : ℚ) : ℚ :=
  r.start + c * r.extent

/-! ## Definitions: tick generation (plot.rs, `Plot::show`, lines 356-421) -/

/-- Rust `as i32` conversion applied to `range.start / increment`
(plot.rs lines 366 and 395): truncation toward zero. -/
def truncInt (q : ℚ) : ℤ :=
  if 0 ≤ q then ⌊q⌋ else ⌈q⌉

/-- The start index of a tick walk, plot.rs lines 366-369 (X axis) and
395-398 (Y axis):

    let mut i_start = (range.start / increment) as i32;
    if i_start >= 0 { i_start += 1; }
-/
def i_start (start incr : ℚ) : ℤ :=
  let i := truncInt (start / incr)
  if 0 ≤ i then i + 1 else i

/-- The tick-walk loop of plot.rs lines 370-392 / 399-421, reduced to the
sequence of emitted tick positions `i as f32 * increment`: starting at
index `i`, emit `i * incr` and advance while `i * incr` does not exceed
`bound`.  Each emitted position corresponds to one tick line, one
gridline and one numeric label in the source.  The source loop does not
terminate when `incr ≤ 0`; the first guard returns `[]` there purely for
totality (every claim concerns `0 < incr`). -/
def ticksLoop (incr bound : ℚ) (i : ℤ) : List ℚ :=
  if incr ≤ 0 then []
  else if bound < (i : ℚ) * incr then []
  else ((i : ℚ) * incr) :: ticksLoop incr bound (i + 1)
termination_by (⌊bound / incr⌋ + 1 - i).toNat
decreasing_by
  rename_i h1 h2
  have hincr : 0 < incr := lt_of_not_le h1
  have hle : (i : ℚ) * incr ≤ bound := le_of_not_lt h2
  have hdiv : (i : ℚ) ≤ bound / incr := (le_div_iff₀ hincr).mpr hle
  have hF : i ≤ ⌊bound / incr⌋ := Int.le_floor.mpr hdiv
  omega

/-- X-axis tick positions emitted by one frame (plot.rs lines 365-392):
the walk is bounded by `x_axis.range.end`, a data-space value. -/
def xTicks (x_axis : AxisRange) (incr : ℚ) : List ℚ :=
  ticksLoop incr x_axis.stop (i_start x_axis.start incr)

/-- Y-axis tick positions emitted by one frame (plot.rs lines 394-421):
the walk is bounded by `painter_rect.bottom()` — a PIXEL coordinate
(line 401: `if tick_pos_y > painter_rect.bottom() { break; }`) — not by
`y_axis.range.end`. -/
def yTicks (y_axis : AxisRange) (incr painter_rect_bottom : ℚ) : List ℚ :=
  ticksLoop incr painter_rect_bottom (i_start y_axis.start incr)

/-! ## Definitions: tick increment selection (plot.rs lines 356-363) -/

/-- plot.rs line 357: `let ticks_on_smaller_axis = 5;`. -/
def ticks_on_smaller_axis : ℚ := 5

/-- plot.rs line 358:
`let smaller_axis_size = x_axis.range.extent().min(y_axis.range.extent());`. -/
def smaller_axis_size (x_axis y_axis : AxisRange) : ℚ :=
  min x_axis.extent y_axis.extent

/-- plot.rs line 359:
`let rough_increment = smaller_axis_size / ticks_on_smaller_axis as f32;`. -/
def rough_increment (x_axis y_axis : AxisRange) : ℚ :=
  smaller_axis_size x_axis y_axis / ticks_on_smaller_axis

/-- A "nice" decimal increment: 1, 2 or 5 times a power of ten
(spec §4.2 / §8). -/
def IsNiceIncrement (x : ℚ) : Prop :=
  ∃ n : ℤ, x = 10 ^ n ∨ x = 2 * 10 ^ n ∨ x = 5 * 10 ^ n

/-- Modelled from the spec: plot.rs lines 360-363 call
`emath::smart_aim::best_in_range_f64(rough*0.5, rough*1.5)`, which lives
in the external `egui` crate, not in this repository.  Per the spec
(§4.2) it snaps the rough increment "to the nearest visually nice
decimal increment (1/2/5 x power of ten) within a tolerance band of
[0.5 x rough, 1.5 x rough]"; we model its result as any value satisfying
that contract. -/
def best_in_range (lo hi x : ℚ) : Prop :=
  IsNiceIncrement x ∧ lo ≤ x ∧ x ≤ hi

/-! ## Definitions: pixel <-> data transforms (plot.rs lines 83-117)

The transform functions have a transcendental (logarithmic) branch, so
they are embedded over `ℝ` on a mirror of `AxisRange` with real-valued
bounds. -/

/-- `RangeInclusive<f32>` as consumed by the transform functions: `lo`
is `*range.start()` and `hi` is `*range.end()`. -/
structure RangeInc where
  lo : ℝ
  hi : ℝ

/-- `emath::lerp(range, t)` from the egui math library the source calls:
`(1 - t) * range.start + t * range.end`. -/
noncomputable def lerp (range : RangeInc) (t : ℝ) : ℝ :=
  (1 - t) * range.lo + t * range.hi

/-- `emath::remap(x, from, to)` from the egui math library the source
calls: inverse-lerp `x` inside `from`, then lerp the parameter into
`to`. -/
noncomputable def remap (x : ℝ) (src dst : RangeInc) : ℝ :=
  lerp dst ((x - src.lo) / (src.hi - src.lo))

/-- `AxisRange` with real-valued bounds, mirror of plot.rs lines 39-44
for the transform functions (the `end` field is embedded as `stop`). -/
structure AxisRangeR where
  start : ℝ
  stop : ℝ
  scaling : AxisScaling

/-- `AxisRange::extent` over the real mirror. -/
noncomputable def AxisRangeR.extent (r : AxisRangeR) : ℝ :=
  r.stop - r.start

/-- `AxisRange::pixel_to_axis` (plot.rs lines 83-97).  The Logarithmic
branch computes `(t * den).powi(10)`, i.e. the TENTH POWER of `t * den`,
exactly as the source does. -/
noncomputable def AxisRangeR.pixel_to_axis
    (r : AxisRangeR) (pixel_range : RangeInc) (pixel : ℝ) (flip : Bool) : ℝ :=
  let pixel_tf :=
    if flip then remap pixel pixel_range ⟨r.stop, r.start⟩
    else remap pixel pixel_range ⟨r.start, r.stop⟩
  match r.scaling with
  | AxisScaling.Linear => pixel_tf
  | AxisScaling.Logarithmic =>
      let den := Real.logb 10 (r.stop / r.start)
      let t := (pixel_tf - r.start) / r.extent
      (t * den) ^ (10 : ℕ) * r.start

/-- `AxisRange::axis_to_pixel` (plot.rs lines 99-117).  Note that the
Logarithmic branch lerps `t` over the AXIS range (`self.start..self.end`)
and never uses `pixel_range`, exactly as the source does. -/
noncomputable def AxisRangeR.axis_to_pixel
    (r : AxisRangeR) (pixel_range : RangeInc) (axis_pos : ℝ) (flip : Bool) : ℝ :=
  match r.scaling with
  | AxisScaling.Linear =>
      if flip then remap axis_pos ⟨r.stop, r.start⟩ pixel_range
      else remap axis_pos ⟨r.start, r.stop⟩ pixel_range
  | AxisScaling.Logarithmic =>
      let t := Real.logb (r.stop / r.start) (axis_pos / r.start)
      if flip then lerp ⟨r.stop, r.start⟩ t else lerp ⟨r.start, r.stop⟩ t

/-! ## Definitions: plot builder, memory and registry (plot.rs lines 120-229) -/

/-- `egui::Pos2` over the rationals. -/
structure Pos2 where
  x : ℚ
  y : ℚ
deriving DecidableEq, Repr

/-- `egui::Vec2` over the rationals. -/
structure Vec2 where
  x : ℚ
  y : ℚ
deriving DecidableEq, Repr

/-- `egui::Color32`, kept as an opaque numeric id: no claim inspects
colors. -/
abbrev Color32 := ℕ

/-- `Color32::WHITE`. -/
def Color32.WHITE : Color32 := 0xffffffff

/-- `egui::Stroke`: width and color. -/
structure Stroke where
  width : ℚ
  color : Color32
deriving DecidableEq, Repr

/-- `Stroke::none()`. -/
def Stroke.none : Stroke := ⟨0, 0⟩

/-- `Stroke::new(width, color)`. -/
def Stroke.new (width : ℚ) (color : Color32) : Stroke := ⟨width, color⟩

/-- `Axis` from plot.rs (lines 120-132): label and range, default range
`AxisRange::new(-10.0..=10.0)`. -/
structure Axis where
  label : String
  range : AxisRange
deriving DecidableEq, Repr

/-- `Axis::default()` (plot.rs lines 125-132). -/
def Axis.default : Axis :=
  { label := "", range := AxisRange.new (-10) 10 }

/-- `PlotMemory` from plot.rs (lines 143-147). -/
structure PlotMemory where
  last_drag_pos : Option Pos2
  x_axis_range : AxisRange
  y_axis_range : AxisRange
deriving DecidableEq, Repr

/-- `PlotMemory::default()` (plot.rs lines 149-157): no drag position,
both ranges `[-10, 10]`. -/
def PlotMemory.default : PlotMemory :=
  { last_drag_pos := none
    x_axis_range := AxisRange.new (-10) 10
    y_axis_range := AxisRange.new (-10) 10 }

/-- The builder state of `Plot` (plot.rs lines 134-141) without the
`&mut PlotMemory` borrow, which the pure embedding threads separately. -/
structure Plot where
  title : Option String
  show_cursor_pos : Bool
  size : Vec2
  x_axis : Axis
  y_axis : Axis
deriving DecidableEq, Repr

/-- `Plot::new_with_memory` (plot.rs lines 173-182): the builder
defaults. -/
def Plot.new_with_memory : Plot :=
  { title := none
    show_cursor_pos := true
    size := ⟨100, 100⟩
    x_axis := Axis.default
    y_axis := Axis.default }

/-- `Plot::x_axis_range` (plot.rs lines 194-197): stores the configured
range into the builder's `x_axis`. -/
def Plot.x_axis_range (self : Plot) (lo hi : ℚ) : Plot :=
  { self with x_axis := { self.x_axis with range := AxisRange.new lo hi } }

/-- `Plot::y_axis_range` (plot.rs lines 199-202). -/
def Plot.y_axis_range (self : Plot) (lo hi : ℚ) : Plot :=
  { self with y_axis := { self.y_axis with range := AxisRange.new lo hi } }

/-- The opening of `Plot::show` (plot.rs lines 211-229): the memory is
destructured and

    x_axis.range = *x_axis_range;
    y_axis.range = *y_axis_range;

unconditionally replaces the builder's axis ranges with the ones stored
in `PlotMemory` before anything else happens in the frame.  This
function returns the two axes as they stand after those assignments. -/
def Plot.show_resolve_ranges (self : Plot) (memory : PlotMemory) : Axis × Axis :=
  ({ self.x_axis with range := memory.x_axis_range },
   { self.y_axis with range := memory.y_axis_range })

/-- `PlotCtx` from plot.rs (lines 159-162): the registry mapping plot
ids — `Id::new(label)`, derived deterministically from the label string,
modelled as the label itself — to `PlotMemory`; the hash map is an
association list. -/
structure PlotCtx where
  memory : List (String × PlotMemory)
deriving DecidableEq, Repr

/-- `PlotCtx::default()`. -/
def PlotCtx.default : PlotCtx := ⟨[]⟩

/-- `PlotCtx::plot` (plot.rs lines 164-170):
`self.memory.entry(id).or_default()` then `Plot::new_with_memory` —
returns the fresh builder, the memory entry for the id (created with
`PlotMemory::default()` on first use) and the updated registry. -/
def PlotCtx.plot (ctx : PlotCtx) (label : String) : Plot × PlotMemory × PlotCtx :=
  match ctx.memory.lookup label with
  | some mem => (Plot.new_with_memory, mem, ctx)
  | none =>
      (Plot.new_with_memory, PlotMemory.default,
        ⟨(label, PlotMemory.default) :: ctx.memory⟩)

/-! ## Definitions: plot items (items.rs) -/

/-- `MarkerShape` (items.rs lines 109-117). -/
inductive MarkerShape
  | Circle
  | Triangle
  | Square
  | Plus
  | X
  | Star
deriving DecidableEq, Repr

/-- `YReference` (items.rs lines 119-122). -/
inductive YReference
  | Constant (c : ℚ)
  | Series (s : List ℚ)
deriving DecidableEq, Repr

/-- The primitive paint calls items emit.  Marker geometry (the
per-shape vertex formulas of `Scatter::paint`, items.rs lines 203-241)
is recorded as a single `marker` call carrying its shape, centre and
pixel size: no claim concerns the vertex formulas, and they involve
irrational constants (`sqrt 3`, `sqrt 2`, `TAU`). -/
inductive DrawCall
  | lineSegment (a b : Pos2) (stroke : Stroke)
  | marker (shape : MarkerShape) (center : Pos2) (size : ℚ)
  | arrow (origin : Pos2) (dir : Vec2) (stroke : Stroke)
deriving DecidableEq, Repr

/-- `Scatter` (items.rs lines 125-132). -/
structure Scatter where
  points : List Pos2
  fill : Color32
  stroke : Stroke
  size : ℚ
  shape : MarkerShape
  stems : Option (YReference × Stroke)
deriving DecidableEq, Repr

/-- `Scatter::new` (items.rs lines 135-144). -/
def Scatter.new (points : List Pos2) : Scatter :=
  { points := points
    fill := Color32.WHITE
    stroke := Stroke.none
    size := 1
    shape := MarkerShape.Circle
    stems := none }

/-- `Scatter::stems` (items.rs lines 151-160), embedded as `set_stems`
(the `stems` name is taken by the structure field): the builder method
asserts that a `Series` reference has exactly one value per point; the
`assert!` panic is modelled as `Except.error` carrying the panic message
verbatim (including the source's typo). -/
def Scatter.set_stems (self : Scatter) (reference : YReference) (stroke : Stroke) :
    Except String Scatter :=
  match reference with
  | YReference.Series series =>
      if series.length = self.points.length then
        Except.ok { self with stems := some (reference, stroke) }
      else
        Except.error "The numer of y-axis reference values needs to match the data!"
  | YReference.Constant _ =>
      Except.ok { self with stems := some (reference, stroke) }

/-- `Scatter::paint` (items.rs lines 178-243), reduced to its list of
draw calls: per point, the optional stem segment first (a `Series`
reference is indexed with `.get(i).unwrap()`, whose panic on a missing
value is modelled as `Except.error`), then the marker. -/
def Scatter.paint (self : Scatter) (transform : Pos2 → Pos2) :
    Except String (List DrawCall) := do
  let calls ← self.points.enum.mapM (fun ip => do
    let i := ip.1
    let p := ip.2
    let p_tf := transform p
    let stemCalls ← (match self.stems with
      | some (reference, stroke) => do
          let current_ref ← (match reference with
            | YReference.Constant c => Except.ok c
            | YReference.Series s =>
                match s.get? i with
                | some v => Except.ok v
                | none => Except.error "called unwrap on a None value")
          Except.ok [DrawCall.lineSegment (transform ⟨p.x, current_ref⟩) p_tf stroke]
      | none => Except.ok ([] : List DrawCall))
    Except.ok (stemCalls ++ [DrawCall.marker self.shape p_tf self.size]))
  Except.ok calls.flatten

/-- The submission sequence of the C9 scenario: configure stems on a
fresh scatter, then paint it.  When the builder method panics there is
no scatter value left, so painting never happens. -/
def scatterStemsPipeline (points : List Pos2) (series : List ℚ)
    (stroke : Stroke) (transform : Pos2 → Pos2) : Except String (List DrawCall) := do
  let s ← (Scatter.new points).set_stems (YReference.Series series) stroke
  s.paint transform

/-- `Quiver` (items.rs lines 312-317). -/
structure Quiver where
  points : List Pos2
  directions : List Vec2
  color : Color32
  weight : ℚ
deriving DecidableEq, Repr

/-- `Quiver::new` (items.rs lines 319-327). -/
def Quiver.new (points : List Pos2) (directions : List Vec2) : Quiver :=
  { points := points, directions := directions, color := Color32.WHITE, weight := 1 }

/-- `Quiver::paint` (items.rs lines 340-358):
`points.iter().zip(directions.iter())` pairs the two vectors — iteration
stops at the end of the shorter one — and draws one arrow per pair, from
`transform(point)` with direction `transform(point + direction) -
transform(point)`, stroke `Stroke::new(weight, color)`.  The function is
total: no length check and no panic. -/
def Quiver.paint (self : Quiver) (transform : Pos2 → Pos2) : List DrawCall :=
  (self.points.zip self.directions).map (fun pd =>
    let point := pd.1
    let direction := pd.2
    let p0 := transform point
    let p1 := transform ⟨point.x + direction.x, point.y + direction.y⟩
    DrawCall.arrow p0 ⟨p1.x - p0.x, p1.y - p0.y⟩ (Stroke.new self.weight self.color))

/-! ## Theorems -/

/-- C6: `translate(delta)` shifts both bounds by `delta`, preserves
`extent()` exactly and shifts `middle()` by exactly `delta`. -/
theorem translate_preserves_extent_shifts_middle (r : AxisRange) (delta : ℚ) :
    (r.translate delta).start = r.start + delta ∧
    (r.translate delta).stop = r.stop + delta ∧
    (r.translate delta).extent = r.extent ∧
    (r.translate delta).middle = r.middle + delta := by
  refine ⟨rfl, rfl, ?_, ?_⟩ <;>
    simp only [AxisRange.translate, AxisRange.extent, AxisRange.middle] <;> ring

/-- C1 (code behaviour at the failing input): the zoom anchor point is NOT
invariant.  For `AxisRange {start := -10, stop := 10}`, `amount = -1/10`,
`center = 1/2`, the data value at fractional position `1/2` is `0` before
the call and `1/40 = 0.025` after it: because `zoom` re-evaluates
`extent()` after mutating `start`, the anchor drifts by
`amount^2 * center^2 * (1-center) * extent`. -/
theorem zoom_anchor_moves :
    (AxisRange.new (-10) 10).fractionalPoint (1/2) = 0 ∧
    ((AxisRange.new (-10) 10).zoom (-1/10) (1/2)).fractionalPoint (1/2) = 1/40 ∧
    ((AxisRange.new (-10) 10).zoom (-1/10) (1/2)).fractionalPoint (1/2) ≠
      (AxisRange.new (-10) 10).fractionalPoint (1/2) := by
  refine ⟨?_, ?_, ?_⟩ <;>
    norm_num [AxisRange.new, AxisRange.zoom, AxisRange.extent, AxisRange.fractionalPoint]

/-- C2 counterexample: the claim that the new end equals
`old end + amount*(1-center)*(old end - old start)` (old extent) fails:
at `AxisRange {-10, 10}`, `amount = -1/10`, `center = 1/2` the code
produces `end = 181/20 = 9.05`, while the claimed formula gives `9`. -/
theorem zoom_end_not_from_old_extent :
    ((AxisRange.new (-10) 10).zoom (-1/10) (1/2)).stop = 181/20 ∧
    ((AxisRange.new (-10) 10).zoom (-1/10) (1/2)).stop ≠
      10 + (-1/10) * (1 - 1/2) * (10 - (-10)) := by
  refine ⟨?_, ?_⟩ <;>
    norm_num [AxisRange.new, AxisRange.zoom, AxisRange.extent]

/-- C2 amended: `zoom(amount, center)` sets
`start' = start - amount*center*(end - start)` from the old extent, but the
`end` update uses the extent recomputed AFTER the start update:
`end' = end + amount*(1-center)*(end - start)*(1 + amount*center)`.
In particular `zoom(-1/10, 1/2)` on `{-10, 10}` yields `{-9, 9.05}`,
not `{-9, 9}`. -/
theorem zoom_closed_form (r : AxisRange) (amount center : ℚ) :
    (r.zoom amount center).start = r.start - amount * center * (r.stop - r.start) ∧
    (r.zoom amount center).stop =
      r.stop + amount * (1 - center) * ((r.stop - r.start) * (1 + amount * center)) ∧
    (AxisRange.new (-10) 10).zoom (-1/10) (1/2) = ⟨-9, 181/20, AxisScaling.Linear⟩ := by
  refine ⟨rfl, ?_, ?_⟩
  · simp only [AxisRange.zoom, AxisRange.extent]
    ring
  · simp only [AxisRange.new, AxisRange.zoom, AxisRange.extent, AxisRange.mk.injEq]
    norm_num

/-- The positions emitted by the tick loop are exactly the multiples
`j * incr` with `j` at least the start index and `j * incr` within the
bound. -/
theorem mem_ticksLoop (incr bound : ℚ) (i : ℤ) (v : ℚ) (hincr : 0 < incr) :
    v ∈ ticksLoop incr bound i ↔
      ∃ j : ℤ, i ≤ j ∧ v = (j : ℚ) * incr ∧ (j : ℚ) * incr ≤ bound := by
  refine ticksLoop.induct incr bound
    (fun i => v ∈ ticksLoop incr bound i ↔
      ∃ j : ℤ, i ≤ j ∧ v = (j : ℚ) * incr ∧ (j : ℚ) * incr ≤ bound) ?_ ?_ ?_ i
  · intro x h
    exact absurd hincr (not_lt.mpr h)
  · intro x h1 h2
    rw [ticksLoop, if_neg h1, if_pos h2]
    simp only [List.not_mem_nil, false_iff]
    rintro ⟨j, hij, rfl, hjb⟩
    have hcast : (x : ℚ) ≤ (j : ℚ) := by exact_mod_cast hij
    have : (x : ℚ) * incr ≤ (j : ℚ) * incr :=
      mul_le_mul_of_nonneg_right hcast (le_of_lt hincr)
    exact absurd (lt_of_le_of_lt (this.trans hjb) h2) (lt_irrefl _)
  · intro x h1 h2 ih
    rw [ticksLoop, if_neg h1, if_neg h2]
    rw [List.mem_cons, ih]
    constructor
    · rintro (rfl | ⟨j, hij, rfl, hjb⟩)
      · exact ⟨x, le_refl x, rfl, le_of_not_lt h2⟩
      · exact ⟨j, by omega, rfl, hjb⟩
    · rintro ⟨j, hij, rfl, hjb⟩
      rcases eq_or_lt_of_le hij with rfl | hlt
      · exact Or.inl rfl
      · exact Or.inr ⟨j, by omega, rfl, hjb⟩

/-- C4 (amended): for a positive increment, each tick loop emits exactly
the integer multiples `j * incr` with `j` at least the truncation-based
start index `i_start` (which skips the boundary multiple exactly when
`trunc(range.start / incr)` is nonnegative); the X walk is bounded by the
data-space value `range.end`, while the Y walk is bounded by the
pixel-space value `painter_rect.bottom()`. -/
theorem tick_walk_emits (r : AxisRange) (incr bottom : ℚ) (hincr : 0 < incr) :
    (∀ v, v ∈ xTicks r incr ↔
      ∃ j : ℤ, i_start r.start incr ≤ j ∧ v = (j : ℚ) * incr ∧ (j : ℚ) * incr ≤ r.stop) ∧
    (∀ v, v ∈ yTicks r incr bottom ↔
      ∃ j : ℤ, i_start r.start incr ≤ j ∧ v = (j : ℚ) * incr ∧ (j : ℚ) * incr ≤ bottom) :=
  ⟨fun v => mem_ticksLoop incr r.stop (i_start r.start incr) v hincr,
   fun v => mem_ticksLoop incr bottom (i_start r.start incr) v hincr⟩

/-- Witness for `tick_walk_emits` at `y_range = [-1, 1]`, `incr = 1`,
`painter_rect.bottom() = 3`. -/
theorem tick_walk_emits_witness :
    (2 : ℚ) ∈ yTicks (AxisRange.new (-1) 1) 1 3 ↔
      ∃ j : ℤ, i_start (AxisRange.new (-1) 1).start 1 ≤ j ∧
        (2 : ℚ) = (j : ℚ) * 1 ∧ (j : ℚ) * 1 ≤ 3 :=
  (tick_walk_emits (AxisRange.new (-1) 1) 1 3 one_pos).2 2

/-- Evaluation of `i_start` at `start/incr = -1`. -/
theorem i_start_eval_neg_one : i_start (-1) 1 = -1 := by
  have ht : truncInt ((-1 : ℚ) / 1) = -1 := by
    rw [truncInt, if_neg (by norm_num), Int.ceil_eq_iff]
    norm_num
  simp only [i_start, ht]
  norm_num

/-- Evaluation of `i_start` at `start/incr = 4`: the boundary multiple
`4` (a nonnegative value exactly at the range edge) is skipped. -/
theorem i_start_eval_four : i_start 4 1 = 5 := by
  have ht : truncInt ((4 : ℚ) / 1) = 4 := by
    rw [truncInt, if_pos (by norm_num), Int.floor_eq_iff]
    norm_num
  simp only [i_start, ht]
  norm_num

/-- Evaluation of `i_start` at `start/incr = -4`: the boundary multiple
`-4` (a negative value exactly at the range edge) is NOT skipped. -/
theorem i_start_eval_neg_four : i_start (-4) 1 = -4 := by
  have ht : truncInt ((-4 : ℚ) / 1) = -4 := by
    rw [truncInt, if_neg (by norm_num), Int.ceil_eq_iff]
    norm_num
  simp only [i_start, ht]
  norm_num

/-- Evaluation of `i_start` at `start/incr = -7/2`: truncation toward
zero gives `-3`, not `floor(-7/2) = -4`. -/
theorem i_start_eval_neg_seven_halves : i_start (-7/2) 1 = -3 := by
  have ht : truncInt ((-7/2 : ℚ) / 1) = -3 := by
    rw [truncInt, if_neg (by norm_num), Int.ceil_eq_iff]
    norm_num
  simp only [i_start, ht]
  norm_num

/-- C4 counterexample: with `y_range = [-1, 1]`, `incr = 1` and
`painter_rect.bottom() = 3`, the Y walk emits the multiple `2`, which
exceeds the y-axis range end `1` (the walk is bounded by the pixel
coordinate, not the data bound); moreover the start rule truncates toward
zero and skips the boundary multiple when it is NONnegative: for
`start/incr = 4` the walk starts at `5` (boundary skipped though
positive), for `start/incr = -4` it starts at `-4` (negative boundary not
skipped), and for `start/incr = -7/2` it starts at `-3`, not at
`floor(-7/2) = -4`. -/
theorem y_tick_beyond_range_end :
    ((2 : ℚ) ∈ yTicks (AxisRange.new (-1) 1) 1 3 ∧
      ¬ ((2 : ℚ) ≤ (AxisRange.new (-1) 1).stop)) ∧
    i_start 4 1 = 5 ∧ i_start (-4) 1 = -4 ∧ i_start (-7/2) 1 = -3 := by
  refine ⟨⟨?_, by norm_num [AxisRange.new]⟩,
    i_start_eval_four, i_start_eval_neg_four, i_start_eval_neg_seven_halves⟩
  rw [yTicks, mem_ticksLoop _ _ _ _ one_pos]
  refine ⟨2, ?_, by norm_num, by norm_num⟩
  rw [show (AxisRange.new (-1) 1).start = -1 from rfl, i_start_eval_neg_one]
  omega

/-- For every positive `a` some nice increment lies in `[a, 3a]`: the
band passed to the snapper always contains a `{1,2,5} * 10^n` value, so
the modelled selection is well defined. -/
theorem exists_nice_between (a : ℚ) (ha : 0 < a) :
    ∃ x : ℚ, IsNiceIncrement x ∧ a ≤ x ∧ x ≤ 3 * a := by
  obtain ⟨n, hmem⟩ := exists_mem_Ico_zpow ha (by norm_num : (1 : ℚ) < 10)
  obtain ⟨hn1, hn2⟩ := hmem
  have hpos : (0 : ℚ) < 10 ^ n := zpow_pos (by norm_num) n
  have hsucc : (10 : ℚ) ^ (n + 1) = 10 ^ n * 10 :=
    zpow_add_one₀ (by norm_num) n
  by_cases hc1 : a ≤ 2 * 10 ^ n
  · exact ⟨2 * 10 ^ n, ⟨n, Or.inr (Or.inl rfl)⟩, hc1, by linarith⟩
  · by_cases hc2 : a ≤ 5 * 10 ^ n
    · exact ⟨5 * 10 ^ n, ⟨n, Or.inr (Or.inr rfl)⟩, hc2, by linarith⟩
    · refine ⟨10 ^ (n + 1), ⟨n + 1, Or.inl rfl⟩, le_of_lt hn2, ?_⟩
      rw [hsucc]
      linarith

/-- C7: with `E` the extent of the smaller axis and the minimum tick
count 5, a tick increment of the form `{1,2,5} * 10^n` exists inside the
band `[0.5*E/5, 1.5*E/5]` handed to the (spec-modelled) snapper, every
value satisfying the snapper contract obeys those bounds, and both the X
and the Y tick walks emit only integer multiples of whatever single
increment they are given. -/
theorem increment_selection (x_axis y_axis : AxisRange) (bottom : ℚ)
    (h : 0 < rough_increment x_axis y_axis) :
    (∃ incr : ℚ,
      best_in_range (rough_increment x_axis y_axis * (1/2))
        (rough_increment x_axis y_axis * (3/2)) incr) ∧
    (∀ incr : ℚ,
      best_in_range (rough_increment x_axis y_axis * (1/2))
        (rough_increment x_axis y_axis * (3/2)) incr →
      IsNiceIncrement incr ∧
      (1/2) * (smaller_axis_size x_axis y_axis / 5) ≤ incr ∧
      incr ≤ (3/2) * (smaller_axis_size x_axis y_axis / 5) ∧
      (∀ v ∈ xTicks x_axis incr, ∃ j : ℤ, v = (j : ℚ) * incr) ∧
      (∀ v ∈ yTicks y_axis incr bottom, ∃ j : ℤ, v = (j : ℚ) * incr)) := by
  have hrough : rough_increment x_axis y_axis = smaller_axis_size x_axis y_axis / 5 := by
    simp [rough_increment, ticks_on_smaller_axis]
  constructor
  · obtain ⟨x, hnice, hlo, hhi⟩ :=
      exists_nice_between (rough_increment x_axis y_axis * (1/2)) (by linarith)
    exact ⟨x, hnice, hlo, by linarith⟩
  · rintro incr ⟨hnice, hlo, hhi⟩
    have hincr : 0 < incr := lt_of_lt_of_le (by linarith) hlo
    refine ⟨hnice, by rw [← hrough]; linarith, by rw [← hrough]; linarith, ?_, ?_⟩
    · intro v hv
      obtain ⟨j, _, hj, _⟩ :=
        (mem_ticksLoop incr x_axis.stop (i_start x_axis.start incr) v hincr).mp hv
      exact ⟨j, hj⟩
    · intro v hv
      obtain ⟨j, _, hj, _⟩ :=
        (mem_ticksLoop incr bottom (i_start y_axis.start incr) v hincr).mp hv
      exact ⟨j, hj⟩

/-- Witness for `increment_selection` at the default ranges `[-10, 10]`
on both axes (`rough = 4`). -/
theorem increment_selection_witness :
    0 < rough_increment (AxisRange.new (-10) 10) (AxisRange.new (-10) 10) ∧
    (∃ incr : ℚ,
      best_in_range (rough_increment (AxisRange.new (-10) 10) (AxisRange.new (-10) 10) * (1/2))
        (rough_increment (AxisRange.new (-10) 10) (AxisRange.new (-10) 10) * (3/2)) incr) :=
  ⟨by norm_num [rough_increment, smaller_axis_size, ticks_on_smaller_axis,
      AxisRange.extent, AxisRange.new],
   (increment_selection (AxisRange.new (-10) 10) (AxisRange.new (-10) 10) 100
      (by norm_num [rough_increment, smaller_axis_size, ticks_on_smaller_axis,
        AxisRange.extent, AxisRange.new])).1⟩

/-- C3: under Linear scaling, for a proper axis range, a non-degenerate
pixel range, either flip flag and any pixel inside the pixel range, the
two transforms round-trip exactly. -/
theorem linear_roundtrip (r : AxisRangeR) (pr : RangeInc) (pixel : ℝ) (flip : Bool)
    (hscale : r.scaling = AxisScaling.Linear)
    (hr : r.start < r.stop) (hpr : pr.lo < pr.hi)
    (hmem : pr.lo ≤ pixel ∧ pixel ≤ pr.hi) :
    r.axis_to_pixel pr (r.pixel_to_axis pr pixel flip) flip = pixel := by
  obtain ⟨rs, re, rsc⟩ := r
  obtain ⟨pl, ph⟩ := pr
  simp only at hscale hr
  subst hscale
  have hrne : re - rs ≠ 0 := sub_ne_zero.mpr (ne_of_gt hr)
  have hrne' : rs - re ≠ 0 := sub_ne_zero.mpr (ne_of_lt hr)
  have hpne : ph - pl ≠ 0 := sub_ne_zero.mpr (ne_of_gt hpr)
  have hpne' : pl - ph ≠ 0 := sub_ne_zero.mpr (ne_of_lt hpr)
  cases flip <;>
    simp only [AxisRangeR.axis_to_pixel, AxisRangeR.pixel_to_axis, remap, lerp,
      Bool.false_eq_true, if_false, if_true] <;>
    field_simp <;>
    ring

/-- Witness for `linear_roundtrip`: range `[-10, 10]`, pixel range
`[0, 800]`, pixel `400`, no flip. -/
theorem linear_roundtrip_witness :
    (AxisRangeR.mk (-10) 10 AxisScaling.Linear).axis_to_pixel ⟨0, 800⟩
      ((AxisRangeR.mk (-10) 10 AxisScaling.Linear).pixel_to_axis ⟨0, 800⟩ 400 false)
      false = 400 :=
  linear_roundtrip (AxisRangeR.mk (-10) 10 AxisScaling.Linear) ⟨0, 800⟩ 400 false
    rfl (by norm_num) (by norm_num) ⟨by norm_num, by norm_num⟩

/-- C8 (code behaviour at the failing input): under Logarithmic scaling
the transforms do not round-trip.  For the axis range `[1, 10]`
(logarithmic), pixel range `[0, 800]`, `flip = false`, starting from
pixel `800`: `pixel_to_axis` yields the data value `1` (it raises
`t * den` to the tenth power instead of exponentiating), and
`axis_to_pixel` maps it to `1` — not back to `800` — because its
logarithmic branch interpolates over the axis range and ignores the
pixel range entirely. -/
theorem log_roundtrip_fails :
    (AxisRangeR.mk 1 10 AxisScaling.Logarithmic).pixel_to_axis ⟨0, 800⟩ 800 false = 1 ∧
    (AxisRangeR.mk 1 10 AxisScaling.Logarithmic).axis_to_pixel ⟨0, 800⟩
      ((AxisRangeR.mk 1 10 AxisScaling.Logarithmic).pixel_to_axis ⟨0, 800⟩ 800 false)
      false = 1 ∧
    (1 : ℝ) ≠ 800 := by
  have h1 : (AxisRangeR.mk 1 10 AxisScaling.Logarithmic).pixel_to_axis ⟨0, 800⟩ 800 false = 1 := by
    simp only [AxisRangeR.pixel_to_axis, remap, lerp, AxisRangeR.extent,
      Bool.false_eq_true, if_false]
    rw [show ((10 : ℝ) / 1) = 10 by norm_num, Real.logb_self_eq_one (by norm_num)]
    norm_num
  refine ⟨h1, ?_, by norm_num⟩
  rw [h1]
  simp only [AxisRangeR.axis_to_pixel, lerp, Bool.false_eq_true, if_false]
  rw [show ((1 : ℝ) / 1) = 1 by norm_num, Real.logb_one]
  norm_num

/-- C5 (code behaviour at the failing input): the builder range settings
never take effect, not even on the first show of a fresh plot id.  A
fresh id gets `PlotMemory::default()` (ranges `[-10, 10]`) from the
registry; `Plot::show` then unconditionally overwrites the builder's
axis ranges with whatever `PlotMemory` holds, so configuring
`x_axis_range(0..=5)` / `y_axis_range(0..=5)` before the first show
still yields frame ranges `[-10, 10]`. -/
theorem builder_ranges_never_take_effect :
    (PlotCtx.plot PlotCtx.default "demo").2.1 = PlotMemory.default ∧
    (∀ (p : Plot) (memory : PlotMemory),
      (p.show_resolve_ranges memory).1.range = memory.x_axis_range ∧
      (p.show_resolve_ranges memory).2.range = memory.y_axis_range) ∧
    ((((PlotCtx.plot PlotCtx.default "demo").1.x_axis_range 0 5).y_axis_range 0
        5).show_resolve_ranges
      (PlotCtx.plot PlotCtx.default "demo").2.1).1.range = AxisRange.new (-10) 10 ∧
    AxisRange.new (-10) 10 ≠ AxisRange.new 0 5 := by
  refine ⟨rfl, fun p memory => ⟨rfl, rfl⟩, rfl, ?_⟩
  simp only [AxisRange.new, ne_eq, AxisRange.mk.injEq]
  norm_num

/-- C9: a `Series` stem reference whose length differs from the point
count makes `Scatter::stems` panic at configuration time: the whole
submission pipeline stops with the assertion message from the builder
method, before `paint` could emit any draw call. -/
theorem scatter_stem_mismatch_fails_fast (points : List Pos2) (series : List ℚ)
    (stroke : Stroke) (transform : Pos2 → Pos2)
    (h : series.length ≠ points.length) :
    scatterStemsPipeline points series stroke transform =
      Except.error "The numer of y-axis reference values needs to match the data!" := by
  simp only [scatterStemsPipeline, Scatter.set_stems, Scatter.new, if_neg h]
  rfl

/-- Witness for `scatter_stem_mismatch_fails_fast`: 3 points, a stem
series of length 2. -/
theorem scatter_stem_mismatch_fails_fast_witness :
    ([(0 : ℚ), 0].length ≠ [Pos2.mk 0 0, Pos2.mk 1 1, Pos2.mk 2 2].length) ∧
    scatterStemsPipeline [Pos2.mk 0 0, Pos2.mk 1 1, Pos2.mk 2 2] [0, 0]
        Stroke.none id =
      Except.error "The numer of y-axis reference values needs to match the data!" :=
  ⟨by decide,
   scatter_stem_mismatch_fails_fast [Pos2.mk 0 0, Pos2.mk 1 1, Pos2.mk 2 2] [0, 0]
     Stroke.none id (by decide)⟩

/-- C10: `Quiver::paint` never panics (the embedding is a total
function) and draws exactly `min(points.len(), directions.len())`
arrows: the zip silently drops the extra entries of the longer vector. -/
theorem quiver_paint_min_arrows (q : Quiver) (transform : Pos2 → Pos2) :
    (q.paint transform).length = min q.points.length q.directions.length := by
  simp [Quiver.paint, List.length_zip]

end Eplot
